import Mathlib

/-
Verification of the NanoFig interactive image-geometry editor.

Two components are embedded from the TypeScript source:

* `ImagePreview` — the pan/zoom/rotate preview viewport
  (source file: the unnamed component defining `handleWheel`,
  `handleMouseDown`, `handleTouchMove`, `zoomIn`, `zoomOut`,
  `handleRotateClockwise`, ...).
* `ImageCropper` — the aspect-locked crop-rectangle manipulator
  (source file: `src/components/ImageCropper.tsx`).

Numbers are modelled as rationals (ℚ): all the source arithmetic is
`+ - * /`, `min`, `max` and comparisons on JS numbers, which the
embedding renders exactly.  The one exception is `getDist`, which in
the source computes `Math.sqrt(dx*dx + dy*dy)` of two touch points;
since the controller consumes only that scalar, the touch events of
the embedding carry the already-computed inter-contact distance as
their datum.
-/

/-- JS `Math.max` on two numbers (no NaN in the rational model). -/
def mathMax (a b : ℚ) : ℚ := if a < b then b else a

/-- JS `Math.min` on two numbers (no NaN in the rational model). -/
def mathMin (a b : ℚ) : ℚ := if b < a then b else a

namespace ImagePreview

/-- Source constant `MIN_SCALE = 1`. -/
def MIN_SCALE : ℚ := 1

/-- Source constant `MAX_SCALE = 8`. -/
def MAX_SCALE : ℚ := 8

/-- Source constant `SCALE_STEP = 0.5`. -/
def SCALE_STEP : ℚ := 0.5

/-- The mutable state of the `ImagePreview` component: the React state
`scale`, `position`, `rotation`, `isDragging` together with the refs
`startPosRef` (fields `x y posX posY`), `pinchDistRef`, `pinchScaleRef`. -/
structure State where
  scale : ℚ
  posX : ℚ
  posY : ℚ
  rotation : ℤ
  isDragging : Bool
  startX : ℚ
  startY : ℚ
  startPosX : ℚ
  startPosY : ℚ
  pinchDist : ℚ
  pinchScale : ℚ
deriving DecidableEq

/-- Initial component state: `useState(1)`, `useState({x:0,y:0})`,
`useState(0)`, `useState(false)`, `useRef({x:0,y:0,posX:0,posY:0})`,
`useRef(0)`, `useRef(1)`. -/
def initState : State :=
  { scale := 1, posX := 0, posY := 0, rotation := 0, isDragging := false,
    startX := 0, startY := 0, startPosX := 0, startPosY := 0,
    pinchDist := 0, pinchScale := 1 }

/-- Source `resetTransform`: sets scale to `MIN_SCALE`, position to
`{0,0}` and rotation to `0`; it touches no ref and not `isDragging`. -/
def resetTransform (s : State) : State :=
  { s with scale := MIN_SCALE, posX := 0, posY := 0, rotation := 0 }

/-- Source `handleWheel`.  `active` stands for
`imageSrc !== null && !isLoading`; when it is false the handler
returns immediately. -/
def handleWheel (active : Bool) (s : State) (deltaY : ℚ) : State :=
  if active then
    let delta := if 0 < deltaY then -SCALE_STEP else SCALE_STEP
    let newScale := mathMax MIN_SCALE (mathMin MAX_SCALE (s.scale + delta))
    if newScale = MIN_SCALE then resetTransform s
    else { s with scale := newScale }
  else s

/-- Source `handleMouseDown`: a no-op unless an image is bound, not
loading, and `scale > MIN_SCALE`; otherwise records the drag start. -/
def handleMouseDown (active : Bool) (s : State) (cx cy : ℚ) : State :=
  if active ∧ MIN_SCALE < s.scale then
    { s with isDragging := true,
             startX := cx, startY := cy,
             startPosX := s.posX, startPosY := s.posY }
  else s

/-- Source `handleMouseMove`: when a drag is active, sets the position
to the drag-start position plus the pointer delta from the drag
start. -/
def handleMouseMove (active : Bool) (s : State) (cx cy : ℚ) : State :=
  if s.isDragging ∧ active then
    { s with posX := s.startPosX + (cx - s.startX),
             posY := s.startPosY + (cy - s.startY) }
  else s

/-- Source `handleMouseUpOrLeave` (unconditional). -/
def handleMouseUpOrLeave (s : State) : State :=
  { s with isDragging := false }

/-- The touch list of an event, as the source inspects it: exactly one
contact (with its client coordinates), exactly two contacts (with
their `getDist` inter-contact distance), or any other count, on which
all three touch handlers leave the state unchanged. -/
inductive Touches where
  | one (cx cy : ℚ)
  | two (dist : ℚ)
  | other
deriving DecidableEq

/-- Source `handleTouchStart`: one contact at `scale > MIN_SCALE`
starts a drag; two contacts start a pinch session (recording the
distance and current scale, and clearing `isDragging`). -/
def handleTouchStart (active : Bool) (s : State) (t : Touches) : State :=
  if active then
    match t with
    | .one cx cy =>
        if MIN_SCALE < s.scale then
          { s with isDragging := true,
                   startX := cx, startY := cy,
                   startPosX := s.posX, startPosY := s.posY }
        else s
    | .two dist =>
        { s with pinchDist := dist, pinchScale := s.scale, isDragging := false }
    | .other => s
  else s

/-- Source `handleTouchMove`: one contact while dragging pans exactly
like `handleMouseMove`; two contacts with a recorded positive pinch
distance rescale by `newDist / pinchDist`, clamped, snapping to
`resetTransform` when the clamped result is `MIN_SCALE`. -/
def handleTouchMove (active : Bool) (s : State) (t : Touches) : State :=
  if active then
    match t with
    | .one cx cy =>
        if s.isDragging then
          { s with posX := s.startPosX + (cx - s.startX),
                   posY := s.startPosY + (cy - s.startY) }
        else s
    | .two dist =>
        if 0 < s.pinchDist then
          let scaleChange := dist / s.pinchDist
          let newScale := mathMax MIN_SCALE (mathMin MAX_SCALE (s.pinchScale * scaleChange))
          if newScale = MIN_SCALE then resetTransform s
          else { s with scale := newScale }
        else s
    | .other => s
  else s

/-- Source `handleTouchEnd` (no image/loading guard in the source):
always clears `isDragging` and the pinch distance; if exactly one
contact remains it then re-enters a drag session anchored at the
current position — without any scale check. -/
def handleTouchEnd (s : State) (t : Touches) : State :=
  let s1 := { s with isDragging := false, pinchDist := 0 }
  match t with
  | .one cx cy =>
      { s1 with isDragging := true,
                startX := cx, startY := cy,
                startPosX := s1.posX, startPosY := s1.posY }
  | _ => s1

/-- Source `zoomIn`: `min(MAX_SCALE, scale + SCALE_STEP)`, no reset
branch, no guard. -/
def zoomIn (s : State) : State :=
  { s with scale := mathMin MAX_SCALE (s.scale + SCALE_STEP) }

/-- Source `zoomOut`: `max(MIN_SCALE, scale - SCALE_STEP)`, resetting
the whole transform when the result is exactly `MIN_SCALE`. -/
def zoomOut (s : State) : State :=
  let newScale := mathMax MIN_SCALE (s.scale - SCALE_STEP)
  if newScale = MIN_SCALE then resetTransform s
  else { s with scale := newScale }

/-- Source `handleRotateClockwise`: `(prev + 90) % 360`.  The JS `%`
agrees with `Int.emod` here because the dividend is non-negative in
every reachable state. -/
def handleRotateClockwise (s : State) : State :=
  { s with rotation := (s.rotation + 90) % 360 }

/-- Source `handleRotateCounterClockwise`: `(prev - 90 + 360) % 360`. -/
def handleRotateCounterClockwise (s : State) : State :=
  { s with rotation := (s.rotation - 90 + 360) % 360 }

/-- One viewport input event.  `imageChange` is the effect that runs
`resetTransform` whenever the bound image source changes;
`resetButton` is the Reset-View control, whose click handler is
`resetTransform` itself. -/
inductive Event where
  | wheel (deltaY : ℚ)
  | mouseDown (cx cy : ℚ)
  | mouseMove (cx cy : ℚ)
  | mouseUpOrLeave
  | touchStart (t : Touches)
  | touchMove (t : Touches)
  | touchEnd (t : Touches)
  | zoomIn
  | zoomOut
  | rotateClockwise
  | rotateCounterClockwise
  | resetButton
  | imageChange
deriving DecidableEq

/-- Dispatch one event.  `active` is the value of
`imageSrc !== null && !isLoading` at the moment the event fires; the
handlers that consult it are exactly those that do in the source. -/
def step (active : Bool) (s : State) (e : Event) : State :=
  match e with
  | .wheel d => handleWheel active s d
  | .mouseDown cx cy => handleMouseDown active s cx cy
  | .mouseMove cx cy => handleMouseMove active s cx cy
  | .mouseUpOrLeave => handleMouseUpOrLeave s
  | .touchStart t => handleTouchStart active s t
  | .touchMove t => handleTouchMove active s t
  | .touchEnd t => handleTouchEnd s t
  | .zoomIn => zoomIn s
  | .zoomOut => zoomOut s
  | .rotateClockwise => handleRotateClockwise s
  | .rotateCounterClockwise => handleRotateCounterClockwise s
  | .resetButton => resetTransform s
  | .imageChange => resetTransform s

/-- States reachable from the freshly mounted component by any event
sequence, with the image/loading flags free to vary between events
(a superset of the traces the browser can produce). -/
inductive Reach : State → Prop where
  | init : Reach initState
  | next (active : Bool) (e : Event) {s : State} :
      Reach s → Reach (step active s e)

/-- Whether an event is a single-contact drag-move. -/
def isSingleMove : Event → Bool
  | .mouseMove _ _ => true
  | .touchMove (.one _ _) => true
  | _ => false

/-- Reachability restricted to traces in which every single-contact
drag-move fires in a state with `scale > MIN_SCALE`. -/
inductive ReachSafe : State → Prop where
  | init : ReachSafe initState
  | next (active : Bool) (e : Event) {s : State} :
      ReachSafe s → (isSingleMove e = true → MIN_SCALE < s.scale) →
      ReachSafe (step active s e)

end ImagePreview

namespace ImageCropper

/-- Source `Rect` (the `crop` state). -/
structure Rect where
  x : ℚ
  y : ℚ
  width : ℚ
  height : ℚ
deriving DecidableEq

/-- Source `imageSize` state: the fitted (letterboxed) placement of
the image inside its container, `{width, height, left, top}`. -/
structure Box where
  width : ℚ
  height : ℚ
  left : ℚ
  top : ℚ
deriving DecidableEq

/-- Source `DragHandle`. -/
inductive Handle where
  | n | s | e | w | ne | nw | se | sw | move
deriving DecidableEq

/-- JS `type.includes('e')` on the handle strings.  Note that the
string `move` contains the letter `e`, so this is true for the
`move` handle as well — exactly as in the source. -/
def includesE : Handle → Bool
  | .e | .ne | .se | .move => true
  | _ => false

/-- JS `type.includes('w')` on the handle strings. -/
def includesW : Handle → Bool
  | .w | .nw | .sw => true
  | _ => false

/-- JS `type.includes('s')` on the handle strings. -/
def includesS : Handle → Bool
  | .s | .se | .sw => true
  | _ => false

/-- JS `type.includes('n')` on the handle strings. -/
def includesN : Handle → Bool
  | .n | .ne | .nw => true
  | _ => false

/-- JS `type.startsWith('n')` on the handle strings. -/
def startsWithN : Handle → Bool
  | .n | .ne | .nw => true
  | _ => false

/-- JS `type.startsWith('s')` on the handle strings. -/
def startsWithS : Handle → Bool
  | .s | .se | .sw => true
  | _ => false

/-- Stage 1 of `handleMouseMove`'s `setCrop` updater (source comment
"Calculate new dimensions/positions"): `e` grows width by `dx`; `w`
shifts `x` by `dx` and shrinks width by `dx`; `s` grows height by
`dy`; `n` shifts `y` by `dy` and shrinks height by `dy`. -/
def applyEdgeDeltas (prev : Rect) (t : Handle) (dx dy : ℚ) : Rect :=
  { x := if includesW t then prev.x + dx else prev.x
    y := if includesN t then prev.y + dy else prev.y
    width :=
      (if includesE t then prev.width + dx else prev.width) -
        (if includesW t then dx else 0)
    height :=
      (if includesS t then prev.height + dy else prev.height) -
        (if includesN t then dy else 0) }

/-- Stage 2 (source comment "Maintain aspect ratio"): for handles
starting with `n` or `s` the width is recomputed from the height,
otherwise the height is recomputed from the width. -/
def applyAspect (aspectRatioValue : ℚ) (t : Handle) (r : Rect) : Rect :=
  if startsWithN t || startsWithS t then
    { r with width := r.height * aspectRatioValue }
  else
    { r with height := r.width / aspectRatioValue }

/-- Stage 3: corner re-anchoring — `nw` recomputes `x` and `y` from
the previous rect's far edges, `ne` recomputes only `y`, `sw` only
`x`. -/
def applyAnchors (prev : Rect) (t : Handle) (r : Rect) : Rect :=
  { r with
    x := if t = .nw ∨ t = .sw then prev.x + prev.width - r.width else r.x
    y := if t = .nw ∨ t = .ne then prev.y + prev.height - r.height else r.y }

/-- Stage 4: the `move` branch translates by `(dx, dy)`. -/
def applyMove (t : Handle) (dx dy : ℚ) (r : Rect) : Rect :=
  if t = .move then { r with x := r.x + dx, y := r.y + dy } else r

/-- Stage 5 (source comment "Clamp to image boundaries"): `x` and `y`
are clamped to the fitted box's origin; an overflowing right edge
shrinks the width to fit and re-derives the height; then an
overflowing bottom edge shrinks the height to fit and re-derives the
width. -/
def clampToBox (imageSize : Box) (aspectRatioValue : ℚ) (r : Rect) : Rect :=
  let x := mathMax imageSize.left r.x
  let y := mathMax imageSize.top r.y
  let w1 :=
    if imageSize.left + imageSize.width < x + r.width then
      imageSize.left + imageSize.width - x
    else r.width
  let h1 :=
    if imageSize.left + imageSize.width < x + r.width then
      (imageSize.left + imageSize.width - x) / aspectRatioValue
    else r.height
  let h2 :=
    if imageSize.top + imageSize.height < y + h1 then
      imageSize.top + imageSize.height - y
    else h1
  let w2 :=
    if imageSize.top + imageSize.height < y + h1 then
      (imageSize.top + imageSize.height - y) * aspectRatioValue
    else w1
  { x := x, y := y, width := w2, height := h2 }

/-- The candidate rect built by `handleMouseMove`'s updater before the
final minimum-size check. -/
def candidateRect (imageSize : Box) (aspectRatioValue : ℚ) (prev : Rect)
    (t : Handle) (dx dy : ℚ) : Rect :=
  clampToBox imageSize aspectRatioValue
    (applyMove t dx dy
      (applyAnchors prev t
        (applyAspect aspectRatioValue t
          (applyEdgeDeltas prev t dx dy))))

/-- Source `handleMouseMove`'s `setCrop` updater for one pointer-move
of incremental delta `(dx, dy)` while handle `t` is being dragged: the
candidate mutation is discarded in favour of `prevCrop` when its width
or height is below 20 (source comment "Prevent inversion"). -/
def handleMouseMove (imageSize : Box) (aspectRatioValue : ℚ) (prevCrop : Rect)
    (t : Handle) (dx dy : ℚ) : Rect :=
  let newCrop := candidateRect imageSize aspectRatioValue prevCrop t dx dy
  if newCrop.width < 20 ∨ newCrop.height < 20 then prevCrop else newCrop

/-- Source `initCrop` (assuming the guard `imageSize.width ≠ 0 ≠
imageSize.height` passed, otherwise the source leaves the previous
crop in place): 0.8 of the limiting fitted dimension, the other side
derived from the aspect ratio, centred in the fitted box. -/
def initCrop (imageSize : Box) (aspectRatioValue : ℚ) : Rect :=
  let imgAspect := imageSize.width / imageSize.height
  let newWidth :=
    if imgAspect < aspectRatioValue then imageSize.width * 0.8
    else imageSize.height * 0.8 * aspectRatioValue
  let newHeight :=
    if imgAspect < aspectRatioValue then imageSize.width * 0.8 / aspectRatioValue
    else imageSize.height * 0.8
  { x := imageSize.left + (imageSize.width - newWidth) / 2
    y := imageSize.top + (imageSize.height - newHeight) / 2
    width := newWidth
    height := newHeight }

/-- Source `onImageLoad` (the spec's `computeFittedBox`): letterbox
placement of a `naturalWidth × naturalHeight` image inside a
`clientWidth × clientHeight` container. -/
def onImageLoad (clientWidth clientHeight naturalWidth naturalHeight : ℚ) : Box :=
  let containerAspect := clientWidth / clientHeight
  let imgAspect := naturalWidth / naturalHeight
  if containerAspect < imgAspect then
    { width := clientWidth
      height := clientWidth / imgAspect
      left := 0
      top := (clientHeight - clientWidth / imgAspect) / 2 }
  else
    { width := clientHeight * imgAspect
      height := clientHeight
      left := (clientWidth - clientHeight * imgAspect) / 2
      top := 0 }

/-- Source `dragInfo` ref contents. -/
structure DragInfo where
  active : Bool
  type : Option Handle
deriving DecidableEq

/-- Source `handleMouseUp` (the spec's `endHandleDrag`): clears the
drag session. -/
def handleMouseUp (_info : DragInfo) : DragInfo :=
  { active := false, type := none }

/-- Output geometry of source `handleSave` (the spec's
`exportSelection`): the created canvas size, and the source rectangle
passed to `drawImage` (the destination rectangle is the full canvas).
Canvas sizes are modelled as the assigned JS numbers. -/
structure SaveOutput where
  canvasWidth : ℚ
  canvasHeight : ℚ
  srcX : ℚ
  srcY : ℚ
  srcW : ℚ
  srcH : ℚ
deriving DecidableEq

/-- Source `handleSave`: `scaleX/scaleY` map fitted display pixels to
natural-image pixels; dimensions are trimmed by 2 display pixels when
the current drag type is a single horizontal (`w`/`e`) or vertical
(`n`/`s`) edge. -/
def handleSave (naturalWidth naturalHeight : ℚ) (imageSize : Box) (crop : Rect)
    (dragType : Option Handle) : SaveOutput :=
  let scaleX := naturalWidth / imageSize.width
  let scaleY := naturalHeight / imageSize.height
  { canvasWidth :=
      (crop.width - (if dragType = some .w ∨ dragType = some .e then 2 else 0)) * scaleX
    canvasHeight :=
      (crop.height - (if dragType = some .n ∨ dragType = some .s then 2 else 0)) * scaleY
    srcX := (crop.x - imageSize.left) * scaleX
    srcY := (crop.y - imageSize.top) * scaleY
    srcW := crop.width * scaleX
    srcH := crop.height * scaleY }

/-- Crop rectangles reachable from the initial crop by any sequence of
handle-drag pointer moves, for a fixed fitted box and aspect ratio. -/
inductive CropReach (imageSize : Box) (aspectRatioValue : ℚ) : Rect → Prop where
  | init : CropReach imageSize aspectRatioValue (initCrop imageSize aspectRatioValue)
  | next {r : Rect} (t : Handle) (dx dy : ℚ) :
      CropReach imageSize aspectRatioValue r →
      CropReach imageSize aspectRatioValue
        (handleMouseMove imageSize aspectRatioValue r t dx dy)

end ImageCropper

/-- The final state of the event trace refuting claim C2: zoom in to
1.5, start a two-contact pinch at distance 100 (touch points (0,0) and
(100,0)), pinch down to distance 50 — the clamped scale 0.75 snaps to
`MIN_SCALE` and the transform resets — then lift one finger with the
other at (5,5) (the source re-enters a drag with no scale check), and
move that finger to (15,25). -/
def c2CounterState : ImagePreview.State :=
  ImagePreview.step true
    (ImagePreview.step true
      (ImagePreview.step true
        (ImagePreview.step true
          (ImagePreview.step true ImagePreview.initState .zoomIn)
          (.touchStart (.two 100)))
        (.touchMove (.two 50)))
      (.touchEnd (.one 5 5)))
    (.touchMove (.one 15 25))

theorem mathMax_eq_max (a b : ℚ) : mathMax a b = max a b := by
  unfold mathMax
  rcases lt_or_le a b with h | h
  · rw [if_pos h, max_eq_right h.le]
  · rw [if_neg (not_lt.mpr h), max_eq_left h]

theorem mathMin_eq_min (a b : ℚ) : mathMin a b = min a b := by
  unfold mathMin
  rcases lt_or_le b a with h | h
  · rw [if_pos h, min_eq_right h.le]
  · rw [if_neg (not_lt.mpr h), min_eq_left h]

namespace ImagePreview

lemma scale_clamp_mem (x : ℚ) :
    MIN_SCALE ≤ mathMax MIN_SCALE (mathMin MAX_SCALE x) ∧
    mathMax MIN_SCALE (mathMin MAX_SCALE x) ≤ MAX_SCALE := by
  rw [mathMax_eq_max, mathMin_eq_min]
  exact ⟨le_max_left _ _,
    max_le (by norm_num [MIN_SCALE, MAX_SCALE]) (min_le_left _ _)⟩

lemma reset_scale_mem (s : State) :
    MIN_SCALE ≤ (resetTransform s).scale ∧ (resetTransform s).scale ≤ MAX_SCALE := by
  dsimp only [resetTransform]
  norm_num [MIN_SCALE, MAX_SCALE]

lemma snap_branch_scale (s : State) (x : ℚ) :
    MIN_SCALE ≤ (if mathMax MIN_SCALE (mathMin MAX_SCALE x) = MIN_SCALE then
        resetTransform s
      else { s with scale := mathMax MIN_SCALE (mathMin MAX_SCALE x) }).scale ∧
    (if mathMax MIN_SCALE (mathMin MAX_SCALE x) = MIN_SCALE then
        resetTransform s
      else { s with scale := mathMax MIN_SCALE (mathMin MAX_SCALE x) }).scale ≤
      MAX_SCALE := by
  split_ifs with h1
  · exact reset_scale_mem s
  · exact scale_clamp_mem x

lemma scale_mem_step (a : Bool) (e : Event) (s : State)
    (ih : MIN_SCALE ≤ s.scale ∧ s.scale ≤ MAX_SCALE) :
    MIN_SCALE ≤ (step a s e).scale ∧ (step a s e).scale ≤ MAX_SCALE := by
  have hstep : (0:ℚ) < SCALE_STEP := by norm_num [SCALE_STEP]
  cases e with
  | wheel d =>
      simp only [step, handleWheel]
      by_cases ha : a = true
      · rw [if_pos ha]
        exact snap_branch_scale s _
      · rw [if_neg ha]
        exact ih
  | mouseDown cx cy =>
      simp only [step, handleMouseDown]
      split_ifs with h1
      · exact ih
      · exact ih
  | mouseMove cx cy =>
      simp only [step, handleMouseMove]
      split_ifs with h1
      · exact ih
      · exact ih
  | mouseUpOrLeave =>
      exact ih
  | touchStart t =>
      cases t with
      | one cx cy =>
          simp only [step, handleTouchStart]
          split_ifs with ha h1
          · exact ih
          · exact ih
          · exact ih
      | two dist =>
          simp only [step, handleTouchStart]
          split_ifs with ha
          · exact ih
          · exact ih
      | other =>
          simp only [step, handleTouchStart]
          split_ifs with ha
          · exact ih
          · exact ih
  | touchMove t =>
      cases t with
      | one cx cy =>
          simp only [step, handleTouchMove]
          split_ifs with ha h1
          · exact ih
          · exact ih
          · exact ih
      | two dist =>
          simp only [step, handleTouchMove]
          by_cases ha : a = true
          · rw [if_pos ha]
            by_cases h0 : 0 < s.pinchDist
            · rw [if_pos h0]
              exact snap_branch_scale s _
            · rw [if_neg h0]
              exact ih
          · rw [if_neg ha]
            exact ih
      | other =>
          simp only [step, handleTouchMove]
          split_ifs with ha
          · exact ih
          · exact ih
  | touchEnd t =>
      cases t with
      | one cx cy => exact ih
      | two dist => exact ih
      | other => exact ih
  | zoomIn =>
      simp only [step, zoomIn]
      rw [mathMin_eq_min]
      refine ⟨le_min (by norm_num [MIN_SCALE, MAX_SCALE]) ?_, min_le_left _ _⟩
      have h1 := ih.1
      linarith
  | zoomOut =>
      simp only [step, zoomOut]
      split_ifs with h1
      · exact reset_scale_mem s
      · rw [mathMax_eq_max]
        refine ⟨le_max_left _ _, max_le (by norm_num [MIN_SCALE, MAX_SCALE]) ?_⟩
        have h2 := ih.2
        linarith
  | rotateClockwise =>
      exact ih
  | rotateCounterClockwise =>
      exact ih
  | resetButton =>
      exact reset_scale_mem s
  | imageChange =>
      exact reset_scale_mem s

lemma snap_branch_rot (s : State) (x : ℚ)
    (ih : s.rotation = 0 ∨ s.rotation = 90 ∨ s.rotation = 180 ∨ s.rotation = 270) :
    (if mathMax MIN_SCALE (mathMin MAX_SCALE x) = MIN_SCALE then
        resetTransform s
      else { s with scale := mathMax MIN_SCALE (mathMin MAX_SCALE x) }).rotation = 0 ∨
    (if mathMax MIN_SCALE (mathMin MAX_SCALE x) = MIN_SCALE then
        resetTransform s
      else { s with scale := mathMax MIN_SCALE (mathMin MAX_SCALE x) }).rotation = 90 ∨
    (if mathMax MIN_SCALE (mathMin MAX_SCALE x) = MIN_SCALE then
        resetTransform s
      else { s with scale := mathMax MIN_SCALE (mathMin MAX_SCALE x) }).rotation = 180 ∨
    (if mathMax MIN_SCALE (mathMin MAX_SCALE x) = MIN_SCALE then
        resetTransform s
      else { s with scale := mathMax MIN_SCALE (mathMin MAX_SCALE x) }).rotation = 270 := by
  split_ifs with h1
  · left; rfl
  · exact ih

lemma rot_mem_step (a : Bool) (e : Event) (s : State)
    (ih : s.rotation = 0 ∨ s.rotation = 90 ∨ s.rotation = 180 ∨ s.rotation = 270) :
    (step a s e).rotation = 0 ∨ (step a s e).rotation = 90 ∨
    (step a s e).rotation = 180 ∨ (step a s e).rotation = 270 := by
  cases e with
  | wheel d =>
      simp only [step, handleWheel]
      by_cases ha : a = true
      · rw [if_pos ha]
        exact snap_branch_rot s _ ih
      · rw [if_neg ha]
        exact ih
  | mouseDown cx cy =>
      simp only [step, handleMouseDown]
      split_ifs with h1
      · exact ih
      · exact ih
  | mouseMove cx cy =>
      simp only [step, handleMouseMove]
      split_ifs with h1
      · exact ih
      · exact ih
  | mouseUpOrLeave =>
      exact ih
  | touchStart t =>
      cases t with
      | one cx cy =>
          simp only [step, handleTouchStart]
          split_ifs with ha h1
          · exact ih
          · exact ih
          · exact ih
      | two dist =>
          simp only [step, handleTouchStart]
          split_ifs with ha
          · exact ih
          · exact ih
      | other =>
          simp only [step, handleTouchStart]
          split_ifs with ha
          · exact ih
          · exact ih
  | touchMove t =>
      cases t with
      | one cx cy =>
          simp only [step, handleTouchMove]
          split_ifs with ha h1
          · exact ih
          · exact ih
          · exact ih
      | two dist =>
          simp only [step, handleTouchMove]
          by_cases ha : a = true
          · rw [if_pos ha]
            by_cases h0 : 0 < s.pinchDist
            · rw [if_pos h0]
              exact snap_branch_rot s _ ih
            · rw [if_neg h0]
              exact ih
          · rw [if_neg ha]
            exact ih
      | other =>
          simp only [step, handleTouchMove]
          split_ifs with ha
          · exact ih
          · exact ih
  | touchEnd t =>
      cases t with
      | one cx cy => exact ih
      | two dist => exact ih
      | other => exact ih
  | zoomIn =>
      exact ih
  | zoomOut =>
      simp only [step, zoomOut]
      split_ifs with h1
      · left; rfl
      · exact ih
  | rotateClockwise =>
      dsimp only [step, handleRotateClockwise]
      rcases ih with h0 | h0 | h0 | h0 <;> rw [h0] <;> decide
  | rotateCounterClockwise =>
      dsimp only [step, handleRotateCounterClockwise]
      rcases ih with h0 | h0 | h0 | h0 <;> rw [h0] <;> decide
  | resetButton =>
      left; rfl
  | imageChange =>
      left; rfl

lemma snap_branch_pos (s : State) (x : ℚ) :
    MIN_SCALE ≤ (if mathMax MIN_SCALE (mathMin MAX_SCALE x) = MIN_SCALE then
        resetTransform s
      else { s with scale := mathMax MIN_SCALE (mathMin MAX_SCALE x) }).scale ∧
    ((if mathMax MIN_SCALE (mathMin MAX_SCALE x) = MIN_SCALE then
        resetTransform s
      else { s with scale := mathMax MIN_SCALE (mathMin MAX_SCALE x) }).scale = MIN_SCALE →
      (if mathMax MIN_SCALE (mathMin MAX_SCALE x) = MIN_SCALE then
        resetTransform s
      else { s with scale := mathMax MIN_SCALE (mathMin MAX_SCALE x) }).posX = 0 ∧
      (if mathMax MIN_SCALE (mathMin MAX_SCALE x) = MIN_SCALE then
        resetTransform s
      else { s with scale := mathMax MIN_SCALE (mathMin MAX_SCALE x) }).posY = 0) := by
  split_ifs with h1
  · exact ⟨le_refl _, fun _ => ⟨rfl, rfl⟩⟩
  · exact ⟨(scale_clamp_mem x).1, fun hc => absurd hc h1⟩

lemma pos_inv_step (a : Bool) (e : Event) (s : State)
    (hmove : isSingleMove e = true → MIN_SCALE < s.scale)
    (ih : MIN_SCALE ≤ s.scale ∧ (s.scale = MIN_SCALE → s.posX = 0 ∧ s.posY = 0)) :
    MIN_SCALE ≤ (step a s e).scale ∧
    ((step a s e).scale = MIN_SCALE →
      (step a s e).posX = 0 ∧ (step a s e).posY = 0) := by
  have hstep : (0:ℚ) < SCALE_STEP := by norm_num [SCALE_STEP]
  cases e with
  | wheel d =>
      simp only [step, handleWheel]
      by_cases ha : a = true
      · rw [if_pos ha]
        exact snap_branch_pos s _
      · rw [if_neg ha]
        exact ih
  | mouseDown cx cy =>
      simp only [step, handleMouseDown]
      split_ifs with h1
      · exact ih
      · exact ih
  | mouseMove cx cy =>
      simp only [step, handleMouseMove]
      split_ifs with h1
      · exact ⟨ih.1, fun hc => absurd hc (hmove rfl).ne'⟩
      · exact ih
  | mouseUpOrLeave =>
      exact ih
  | touchStart t =>
      cases t with
      | one cx cy =>
          simp only [step, handleTouchStart]
          split_ifs with ha h1
          · exact ih
          · exact ih
          · exact ih
      | two dist =>
          simp only [step, handleTouchStart]
          split_ifs with ha
          · exact ih
          · exact ih
      | other =>
          simp only [step, handleTouchStart]
          split_ifs with ha
          · exact ih
          · exact ih
  | touchMove t =>
      cases t with
      | one cx cy =>
          simp only [step, handleTouchMove]
          split_ifs with ha h1
          · exact ⟨ih.1, fun hc => absurd hc (hmove rfl).ne'⟩
          · exact ih
          · exact ih
      | two dist =>
          simp only [step, handleTouchMove]
          by_cases ha : a = true
          · rw [if_pos ha]
            by_cases h0 : 0 < s.pinchDist
            · rw [if_pos h0]
              exact snap_branch_pos s _
            · rw [if_neg h0]
              exact ih
          · rw [if_neg ha]
            exact ih
      | other =>
          simp only [step, handleTouchMove]
          split_ifs with ha
          · exact ih
          · exact ih
  | touchEnd t =>
      cases t with
      | one cx cy => exact ih
      | two dist => exact ih
      | other => exact ih
  | zoomIn =>
      simp only [step, zoomIn]
      have hlt : MIN_SCALE < mathMin MAX_SCALE (s.scale + SCALE_STEP) := by
        rw [mathMin_eq_min]
        refine lt_min (by norm_num [MIN_SCALE, MAX_SCALE]) ?_
        have h1 := ih.1
        linarith
      exact ⟨hlt.le, fun hc => absurd hc hlt.ne'⟩
  | zoomOut =>
      simp only [step, zoomOut]
      split_ifs with h1
      · exact ⟨le_refl _, fun _ => ⟨rfl, rfl⟩⟩
      · refine ⟨?_, fun hc => absurd hc h1⟩
        rw [mathMax_eq_max]
        exact le_max_left _ _
  | rotateClockwise =>
      exact ih
  | rotateCounterClockwise =>
      exact ih
  | resetButton =>
      exact ⟨le_refl _, fun _ => ⟨rfl, rfl⟩⟩
  | imageChange =>
      exact ⟨le_refl _, fun _ => ⟨rfl, rfl⟩⟩

lemma handleWheel_true (s : State) (d : ℚ) :
    handleWheel true s d =
      if mathMax MIN_SCALE
          (mathMin MAX_SCALE (s.scale + if 0 < d then -SCALE_STEP else SCALE_STEP)) =
          MIN_SCALE then
        resetTransform s
      else
        { s with scale := mathMax MIN_SCALE (mathMin MAX_SCALE (s.scale + if 0 < d then -SCALE_STEP else SCALE_STEP)) } :=
  rfl

lemma zoomOut_eq (s : State) :
    zoomOut s =
      if mathMax MIN_SCALE (s.scale - SCALE_STEP) = MIN_SCALE then resetTransform s
      else { s with scale := mathMax MIN_SCALE (s.scale - SCALE_STEP) } :=
  rfl

lemma handleTouchMove_true_two (s : State) (dist : ℚ) :
    handleTouchMove true s (.two dist) =
      if 0 < s.pinchDist then
        if mathMax MIN_SCALE (mathMin MAX_SCALE (s.pinchScale * (dist / s.pinchDist))) =
            MIN_SCALE then
          resetTransform s
        else
          { s with scale := mathMax MIN_SCALE (mathMin MAX_SCALE (s.pinchScale * (dist / s.pinchDist))) }
      else s :=
  rfl

end ImagePreview

/-- C1: for every sequence of viewport operations (wheel events,
zoom-in/zoom-out buttons, pinch gestures, reset — and all the other
events), the resulting scale always lies in the closed interval
`[MIN_SCALE, MAX_SCALE] = [1, 8]`. -/
theorem viewport_scale_always_in_bounds (s : ImagePreview.State)
    (h : ImagePreview.Reach s) :
    ImagePreview.MIN_SCALE ≤ s.scale ∧ s.scale ≤ ImagePreview.MAX_SCALE := by
  induction h with
  | init =>
      norm_num [ImagePreview.initState, ImagePreview.MIN_SCALE, ImagePreview.MAX_SCALE]
  | next a e hs ih =>
      exact ImagePreview.scale_mem_step a e _ ih

theorem viewport_scale_always_in_bounds_witness :
    ImagePreview.MIN_SCALE ≤
      (ImagePreview.step true ImagePreview.initState .zoomIn).scale ∧
    (ImagePreview.step true ImagePreview.initState .zoomIn).scale ≤
      ImagePreview.MAX_SCALE :=
  viewport_scale_always_in_bounds _
    (ImagePreview.Reach.next true .zoomIn ImagePreview.Reach.init)

open ImagePreview in
/-- C10: from any reachable viewport state, rotation stays in
`{0, 90, 180, 270}`; four `rotateClockwise` applications restore the
rotation; `rotateCounterClockwise` after `rotateClockwise` is the
identity on the whole state; and neither rotation handler changes
scale or translation. -/
theorem viewport_rotation_algebra (s : State) (h : Reach s) :
    (s.rotation = 0 ∨ s.rotation = 90 ∨ s.rotation = 180 ∨ s.rotation = 270) ∧
    (∀ a b c d : Bool,
      (step d (step c (step b (step a s .rotateClockwise) .rotateClockwise)
        .rotateClockwise) .rotateClockwise).rotation = s.rotation) ∧
    (∀ a b : Bool, step b (step a s .rotateClockwise) .rotateCounterClockwise = s) ∧
    (∀ a : Bool,
      (step a s .rotateClockwise).scale = s.scale ∧
      (step a s .rotateClockwise).posX = s.posX ∧
      (step a s .rotateClockwise).posY = s.posY ∧
      (step a s .rotateCounterClockwise).scale = s.scale ∧
      (step a s .rotateCounterClockwise).posX = s.posX ∧
      (step a s .rotateCounterClockwise).posY = s.posY) := by
  have hrot : s.rotation = 0 ∨ s.rotation = 90 ∨ s.rotation = 180 ∨ s.rotation = 270 := by
    induction h with
    | init => left; rfl
    | next a e hs ih => exact rot_mem_step a e _ ih
  refine ⟨hrot, fun a b c d => ?_, fun a b => ?_,
    fun a => ⟨rfl, rfl, rfl, rfl, rfl, rfl⟩⟩
  · simp only [step, handleRotateClockwise]
    rcases hrot with h0 | h0 | h0 | h0 <;> rw [h0] <;> decide
  · simp only [step, handleRotateClockwise, handleRotateCounterClockwise]
    have h360 : ((s.rotation + 90) % 360 - 90 + 360) % 360 = s.rotation := by
      rcases hrot with h0 | h0 | h0 | h0 <;> rw [h0] <;> decide
    rw [h360]

theorem viewport_rotation_algebra_witness :
    ImagePreview.step true
        (ImagePreview.step true ImagePreview.initState .rotateClockwise)
        .rotateCounterClockwise = ImagePreview.initState :=
  (viewport_rotation_algebra ImagePreview.initState ImagePreview.Reach.init).2.2.1
    true true

open ImagePreview in
/-- C7: each zoom operation (wheel, zoom-out button, two-contact pinch
move) resets the whole transform to identity exactly when its clamped
result equals `MIN_SCALE`, and otherwise sets only the scale,
preserving translation and rotation. -/
theorem viewport_zoom_snap_resets (s : State) (d dist : ℚ) :
    ((mathMax MIN_SCALE (mathMin MAX_SCALE (s.scale + if 0 < d then -SCALE_STEP else SCALE_STEP)) = MIN_SCALE →
        handleWheel true s d =
          { s with scale := MIN_SCALE, posX := 0, posY := 0, rotation := 0 }) ∧
     (mathMax MIN_SCALE (mathMin MAX_SCALE (s.scale + if 0 < d then -SCALE_STEP else SCALE_STEP)) ≠ MIN_SCALE →
        handleWheel true s d =
          { s with scale := mathMax MIN_SCALE (mathMin MAX_SCALE (s.scale + if 0 < d then -SCALE_STEP else SCALE_STEP)) })) ∧
    ((mathMax MIN_SCALE (s.scale - SCALE_STEP) = MIN_SCALE →
        zoomOut s = { s with scale := MIN_SCALE, posX := 0, posY := 0, rotation := 0 }) ∧
     (mathMax MIN_SCALE (s.scale - SCALE_STEP) ≠ MIN_SCALE →
        zoomOut s = { s with scale := mathMax MIN_SCALE (s.scale - SCALE_STEP) })) ∧
    (0 < s.pinchDist →
      ((mathMax MIN_SCALE (mathMin MAX_SCALE (s.pinchScale * (dist / s.pinchDist))) = MIN_SCALE →
          handleTouchMove true s (.two dist) =
            { s with scale := MIN_SCALE, posX := 0, posY := 0, rotation := 0 }) ∧
       (mathMax MIN_SCALE (mathMin MAX_SCALE (s.pinchScale * (dist / s.pinchDist))) ≠ MIN_SCALE →
          handleTouchMove true s (.two dist) =
            { s with scale := mathMax MIN_SCALE (mathMin MAX_SCALE (s.pinchScale * (dist / s.pinchDist))) }))) := by
  refine ⟨⟨fun h1 => ?_, fun h1 => ?_⟩, ⟨fun h1 => ?_, fun h1 => ?_⟩,
    fun h0 => ⟨fun h1 => ?_, fun h1 => ?_⟩⟩
  · rw [handleWheel_true, if_pos h1]
    rfl
  · rw [handleWheel_true, if_neg h1]
  · rw [zoomOut_eq, if_pos h1]
    rfl
  · rw [zoomOut_eq, if_neg h1]
  · rw [handleTouchMove_true_two, if_pos h0, if_pos h1]
    rfl
  · rw [handleTouchMove_true_two, if_pos h0, if_neg h1]

theorem viewport_zoom_snap_resets_witness :
    ImagePreview.handleWheel true
        { ImagePreview.initState with scale := 3/2 } 1 = ImagePreview.initState := by
  have h := (viewport_zoom_snap_resets
    { ImagePreview.initState with scale := 3/2 } 1 0).1.1 (by
      norm_num [mathMax, mathMin, ImagePreview.MIN_SCALE, ImagePreview.MAX_SCALE,
        ImagePreview.SCALE_STEP, ImagePreview.initState])
  exact h

open ImagePreview in
/-- C2 (amended): in every state reachable by traces in which no
single-contact drag-move fires at `scale = MIN_SCALE`, the invariant
`scale = MIN_SCALE → translation = {0,0}` holds; and a drag begun via
`handleMouseDown` or a one-contact `handleTouchStart` while
`scale ≤ MIN_SCALE` leaves the state unchanged.  (The unrestricted
claim fails on the code: the one-remaining-contact branch of
`handleTouchEnd` re-enters a drag with no scale check, so after a
pinch snaps the scale to `MIN_SCALE`, a touch-move translates at
`scale = MIN_SCALE`.) -/
theorem viewport_minscale_centering_amended :
    (∀ s : State, ReachSafe s → s.scale = MIN_SCALE → s.posX = 0 ∧ s.posY = 0) ∧
    (∀ (a : Bool) (s : State) (cx cy : ℚ), s.scale ≤ MIN_SCALE →
      step a s (.mouseDown cx cy) = s ∧ step a s (.touchStart (.one cx cy)) = s) := by
  constructor
  · have main : ∀ s : State, ReachSafe s →
        MIN_SCALE ≤ s.scale ∧ (s.scale = MIN_SCALE → s.posX = 0 ∧ s.posY = 0) := by
      intro s h
      induction h with
      | init => exact ⟨le_refl _, fun _ => ⟨rfl, rfl⟩⟩
      | next a e hs hmove ih => exact pos_inv_step a e _ hmove ih
    exact fun s h => (main s h).2
  · intro a s cx cy hle
    constructor
    · simp only [step, handleMouseDown]
      rw [if_neg]
      rintro ⟨-, hgt⟩
      exact absurd hle (not_le.mpr hgt)
    · simp only [step, handleTouchStart]
      by_cases ha : a = true
      · rw [if_pos ha, if_neg (not_lt.mpr hle)]
      · rw [if_neg ha]

theorem viewport_minscale_centering_amended_witness :
    (ImagePreview.initState.posX = 0 ∧ ImagePreview.initState.posY = 0) ∧
    ImagePreview.step true ImagePreview.initState (.mouseDown 3 4) =
      ImagePreview.initState :=
  ⟨viewport_minscale_centering_amended.1 _ ImagePreview.ReachSafe.init rfl,
   (viewport_minscale_centering_amended.2 true ImagePreview.initState 3 4
      (le_refl _)).1⟩

/-- C2 (counterexample): the trace zoom-in, pinch-start at distance
100, pinch-move to distance 50 (scale snaps to `MIN_SCALE` and the
transform resets), touch-end with one finger left at (5,5), touch-move
to (15,25) reaches a state with `scale = MIN_SCALE` and translation
`(10, 20) ≠ {0,0}`. -/
theorem viewport_minscale_centering_counterexample :
    ImagePreview.Reach c2CounterState ∧
    c2CounterState.scale = ImagePreview.MIN_SCALE ∧
    c2CounterState.posX = 10 ∧ c2CounterState.posY = 20 ∧
    c2CounterState.posX ≠ 0 := by
  have h1 : ImagePreview.step true ImagePreview.initState .zoomIn =
      ⟨3/2, 0, 0, 0, false, 0, 0, 0, 0, 0, 1⟩ := by
    norm_num [ImagePreview.step, ImagePreview.zoomIn, ImagePreview.initState,
      mathMin, ImagePreview.MAX_SCALE, ImagePreview.SCALE_STEP]
  have h2 : ImagePreview.step true (⟨3/2, 0, 0, 0, false, 0, 0, 0, 0, 0, 1⟩ :
      ImagePreview.State) (.touchStart (.two 100)) =
      ⟨3/2, 0, 0, 0, false, 0, 0, 0, 0, 100, 3/2⟩ := by
    norm_num [ImagePreview.step, ImagePreview.handleTouchStart]
  have h3 : ImagePreview.step true (⟨3/2, 0, 0, 0, false, 0, 0, 0, 0, 100, 3/2⟩ :
      ImagePreview.State) (.touchMove (.two 50)) =
      ⟨1, 0, 0, 0, false, 0, 0, 0, 0, 100, 3/2⟩ := by
    norm_num [ImagePreview.step, ImagePreview.handleTouchMove,
      ImagePreview.resetTransform, mathMax, mathMin, ImagePreview.MIN_SCALE,
      ImagePreview.MAX_SCALE]
  have h4 : ImagePreview.step true (⟨1, 0, 0, 0, false, 0, 0, 0, 0, 100, 3/2⟩ :
      ImagePreview.State) (.touchEnd (.one 5 5)) =
      ⟨1, 0, 0, 0, true, 5, 5, 0, 0, 0, 3/2⟩ := by
    norm_num [ImagePreview.step, ImagePreview.handleTouchEnd]
  have h5 : ImagePreview.step true (⟨1, 0, 0, 0, true, 5, 5, 0, 0, 0, 3/2⟩ :
      ImagePreview.State) (.touchMove (.one 15 25)) =
      ⟨1, 10, 20, 0, true, 5, 5, 0, 0, 0, 3/2⟩ := by
    norm_num [ImagePreview.step, ImagePreview.handleTouchMove]
  have hfinal : c2CounterState = ⟨1, 10, 20, 0, true, 5, 5, 0, 0, 0, 3/2⟩ := by
    unfold c2CounterState
    rw [h1, h2, h3, h4, h5]
  refine ⟨?_, ?_, ?_, ?_, ?_⟩
  · exact ImagePreview.Reach.next true _ (ImagePreview.Reach.next true _
      (ImagePreview.Reach.next true _ (ImagePreview.Reach.next true _
        (ImagePreview.Reach.next true _ ImagePreview.Reach.init))))
  · rw [hfinal]; rfl
  · rw [hfinal]
  · rw [hfinal]
  · rw [hfinal]; norm_num

namespace ImageCropper

lemma applyAspect_consistent (ar : ℚ) (har : ar ≠ 0) (t : Handle) (r : Rect) :
    (applyAspect ar t r).width = (applyAspect ar t r).height * ar := by
  unfold applyAspect
  split_ifs with h
  · rfl
  · exact (div_mul_cancel₀ r.width har).symm

lemma applyAnchors_width (prev : Rect) (t : Handle) (r : Rect) :
    (applyAnchors prev t r).width = r.width := rfl

lemma applyAnchors_height (prev : Rect) (t : Handle) (r : Rect) :
    (applyAnchors prev t r).height = r.height := rfl

lemma applyMove_width (t : Handle) (dx dy : ℚ) (r : Rect) :
    (applyMove t dx dy r).width = r.width := by
  unfold applyMove
  split_ifs <;> rfl

lemma applyMove_height (t : Handle) (dx dy : ℚ) (r : Rect) :
    (applyMove t dx dy r).height = r.height := by
  unfold applyMove
  split_ifs <;> rfl

lemma clampToBox_x_ge (box : Box) (ar : ℚ) (r : Rect) :
    box.left ≤ (clampToBox box ar r).x := by
  show box.left ≤ mathMax box.left r.x
  rw [mathMax_eq_max]
  exact le_max_left _ _

lemma clampToBox_y_ge (box : Box) (ar : ℚ) (r : Rect) :
    box.top ≤ (clampToBox box ar r).y := by
  show box.top ≤ mathMax box.top r.y
  rw [mathMax_eq_max]
  exact le_max_left _ _

lemma clampToBox_aspect (box : Box) (ar : ℚ) (har : ar ≠ 0) (r : Rect)
    (hr : r.width = r.height * ar) :
    (clampToBox box ar r).width = (clampToBox box ar r).height * ar := by
  simp only [clampToBox]
  split_ifs with h1 h2 h3
  · rfl
  · exact (div_mul_cancel₀ _ har).symm
  · rfl
  · exact hr

lemma clampToBox_right (box : Box) (ar : ℚ) (har : 0 < ar) (r : Rect)
    (hr : r.width = r.height * ar) :
    (clampToBox box ar r).x + (clampToBox box ar r).width ≤ box.left + box.width := by
  simp only [clampToBox]
  split_ifs with h1 h2 h3
  · have h4 : box.top + box.height - mathMax box.top r.y <
        (box.left + box.width - mathMax box.left r.x) / ar := by linarith
    have hlt : (box.top + box.height - mathMax box.top r.y) * ar <
        box.left + box.width - mathMax box.left r.x := by
      calc (box.top + box.height - mathMax box.top r.y) * ar
          < (box.left + box.width - mathMax box.left r.x) / ar * ar :=
            mul_lt_mul_of_pos_right h4 har
        _ = box.left + box.width - mathMax box.left r.x :=
            div_mul_cancel₀ _ har.ne'
    linarith
  · linarith
  · push_neg at h1
    have h4 : box.top + box.height - mathMax box.top r.y < r.height := by linarith
    have hlt : (box.top + box.height - mathMax box.top r.y) * ar < r.height * ar :=
      mul_lt_mul_of_pos_right h4 har
    rw [← hr] at hlt
    linarith
  · push_neg at h1
    linarith

lemma clampToBox_bottom (box : Box) (ar : ℚ) (r : Rect) :
    (clampToBox box ar r).y + (clampToBox box ar r).height ≤ box.top + box.height := by
  simp only [clampToBox]
  split_ifs with h1 h2 h3
  · linarith
  · push_neg at h2
    linarith
  · linarith
  · push_neg at h3
    linarith

lemma preClamp_consistent (ar : ℚ) (har : ar ≠ 0) (prev : Rect) (t : Handle)
    (dx dy : ℚ) :
    (applyMove t dx dy (applyAnchors prev t
        (applyAspect ar t (applyEdgeDeltas prev t dx dy)))).width =
      (applyMove t dx dy (applyAnchors prev t
        (applyAspect ar t (applyEdgeDeltas prev t dx dy)))).height * ar := by
  rw [applyMove_width, applyMove_height, applyAnchors_width, applyAnchors_height]
  exact applyAspect_consistent ar har t _

lemma candidateRect_aspect (box : Box) (ar : ℚ) (har : ar ≠ 0) (prev : Rect)
    (t : Handle) (dx dy : ℚ) :
    (candidateRect box ar prev t dx dy).width =
      (candidateRect box ar prev t dx dy).height * ar := by
  unfold candidateRect
  exact clampToBox_aspect box ar har _ (preClamp_consistent ar har prev t dx dy)

lemma candidateRect_bounds (box : Box) (ar : ℚ) (har : 0 < ar) (prev : Rect)
    (t : Handle) (dx dy : ℚ) :
    box.left ≤ (candidateRect box ar prev t dx dy).x ∧
    box.top ≤ (candidateRect box ar prev t dx dy).y ∧
    (candidateRect box ar prev t dx dy).x +
        (candidateRect box ar prev t dx dy).width ≤ box.left + box.width ∧
    (candidateRect box ar prev t dx dy).y +
        (candidateRect box ar prev t dx dy).height ≤ box.top + box.height := by
  unfold candidateRect
  exact ⟨clampToBox_x_ge _ _ _, clampToBox_y_ge _ _ _,
    clampToBox_right box ar har _ (preClamp_consistent ar har.ne' prev t dx dy),
    clampToBox_bottom _ _ _⟩

lemma initCrop_aspect (box : Box) (ar : ℚ) (har : ar ≠ 0) :
    (initCrop box ar).width = (initCrop box ar).height * ar := by
  simp only [initCrop]
  split_ifs with h
  · exact (div_mul_cancel₀ _ har).symm
  · rfl

lemma initCrop_bounds (box : Box) (ar : ℚ) (har : 0 < ar)
    (hbw : 0 < box.width) (hbh : 0 < box.height) :
    box.left ≤ (initCrop box ar).x ∧ box.top ≤ (initCrop box ar).y ∧
    (initCrop box ar).x + (initCrop box ar).width ≤ box.left + box.width ∧
    (initCrop box ar).y + (initCrop box ar).height ≤ box.top + box.height := by
  simp only [initCrop]
  split_ifs with h
  · have hw : box.width * 0.8 ≤ box.width := by linarith
    have h1 : box.width < ar * box.height := by
      rw [div_lt_iff₀ hbh] at h
      linarith
    have hhpos : 0 < box.width * 0.8 / ar := by positivity
    have hhle : box.width * 0.8 / ar ≤ box.height := by
      rw [div_le_iff₀ har]
      linarith
    refine ⟨?_, ?_, ?_, ?_⟩ <;> linarith
  · push_neg at h
    have h1 : ar * box.height ≤ box.width := by
      rw [le_div_iff₀ hbh] at h
      linarith
    have hwle : box.height * 0.8 * ar ≤ box.width := by nlinarith
    have hhle : box.height * 0.8 ≤ box.height := by linarith
    refine ⟨?_, ?_, ?_, ?_⟩ <;> linarith

end ImageCropper


open ImageCropper in
/-- C3: every crop rect reachable from `initCrop` by handle-drag moves
satisfies `width = height * aspectRatioValue` exactly (the rational
model's rendering of "within floating-point tolerance"), hence
`width / height = aspectRatioValue` whenever the height is nonzero. -/
theorem crop_aspect_invariant (box : Box) (ar : ℚ) (har : 0 < ar) (r : Rect)
    (h : CropReach box ar r) :
    r.width = r.height * ar ∧ (r.height ≠ 0 → r.width / r.height = ar) := by
  have main : r.width = r.height * ar := by
    induction h with
    | init => exact initCrop_aspect box ar har.ne'
    | next t dx dy hr ih =>
        simp only [handleMouseMove]
        split_ifs with hsmall
        · exact ih
        · exact candidateRect_aspect box ar har.ne' _ t dx dy
  refine ⟨main, fun hh => ?_⟩
  rw [main, mul_comm, mul_div_assoc, div_self hh, mul_one]

theorem crop_aspect_invariant_witness :
    (ImageCropper.initCrop ⟨500, 250, 0, 125⟩ 1).width =
      (ImageCropper.initCrop ⟨500, 250, 0, 125⟩ 1).height * 1 :=
  (crop_aspect_invariant ⟨500, 250, 0, 125⟩ 1 (by norm_num) _
    ImageCropper.CropReach.init).1

open ImageCropper in
/-- C4: every crop rect reachable from `initCrop` by handle-drag moves
stays inside the fitted image box. -/
theorem crop_stays_in_fitted_box (box : Box) (ar : ℚ) (har : 0 < ar)
    (hbw : 0 < box.width) (hbh : 0 < box.height) (r : Rect)
    (h : CropReach box ar r) :
    box.left ≤ r.x ∧ box.top ≤ r.y ∧
    r.x + r.width ≤ box.left + box.width ∧
    r.y + r.height ≤ box.top + box.height := by
  induction h with
  | init => exact initCrop_bounds box ar har hbw hbh
  | next t dx dy hr ih =>
      simp only [handleMouseMove]
      split_ifs with hsmall
      · exact ih
      · exact candidateRect_bounds box ar har _ t dx dy

theorem crop_stays_in_fitted_box_witness :
    (⟨500, 250, 0, 125⟩ : ImageCropper.Box).left ≤
        (ImageCropper.initCrop ⟨500, 250, 0, 125⟩ 1).x ∧
      (⟨500, 250, 0, 125⟩ : ImageCropper.Box).top ≤
        (ImageCropper.initCrop ⟨500, 250, 0, 125⟩ 1).y ∧
      (ImageCropper.initCrop ⟨500, 250, 0, 125⟩ 1).x +
          (ImageCropper.initCrop ⟨500, 250, 0, 125⟩ 1).width ≤
        (⟨500, 250, 0, 125⟩ : ImageCropper.Box).left +
          (⟨500, 250, 0, 125⟩ : ImageCropper.Box).width ∧
      (ImageCropper.initCrop ⟨500, 250, 0, 125⟩ 1).y +
          (ImageCropper.initCrop ⟨500, 250, 0, 125⟩ 1).height ≤
        (⟨500, 250, 0, 125⟩ : ImageCropper.Box).top +
          (⟨500, 250, 0, 125⟩ : ImageCropper.Box).height :=
  crop_stays_in_fitted_box ⟨500, 250, 0, 125⟩ 1 (by norm_num) (by norm_num)
    (by norm_num) _ ImageCropper.CropReach.init

open ImageCropper in
/-- C5: when the initial crop already meets the 20-pixel minimum,
every reachable settled rect has `width ≥ 20` and `height ≥ 20`; and a
candidate mutation whose clamped result would violate the minimum is
discarded atomically — `handleMouseMove` returns the previous rect
itself. -/
theorem crop_min_size_and_atomic_reject (box : Box) (ar : ℚ)
    (hw0 : 20 ≤ (initCrop box ar).width) (hh0 : 20 ≤ (initCrop box ar).height) :
    (∀ r : Rect, CropReach box ar r → 20 ≤ r.width ∧ 20 ≤ r.height) ∧
    (∀ (prev : Rect) (t : Handle) (dx dy : ℚ),
      ((candidateRect box ar prev t dx dy).width < 20 ∨
        (candidateRect box ar prev t dx dy).height < 20) →
      handleMouseMove box ar prev t dx dy = prev) := by
  constructor
  · intro r h
    induction h with
    | init => exact ⟨hw0, hh0⟩
    | next t dx dy hr ih =>
        simp only [handleMouseMove]
        split_ifs with hsmall
        · exact ih
        · push_neg at hsmall
          exact hsmall
  · intro prev t dx dy hsmall
    simp only [handleMouseMove]
    rw [if_pos hsmall]

theorem crop_min_size_and_atomic_reject_witness :
    20 ≤ (ImageCropper.initCrop ⟨500, 250, 0, 125⟩ 1).width ∧
    20 ≤ (ImageCropper.initCrop ⟨500, 250, 0, 125⟩ 1).height :=
  (crop_min_size_and_atomic_reject ⟨500, 250, 0, 125⟩ 1
      (by norm_num [ImageCropper.initCrop])
      (by norm_num [ImageCropper.initCrop])).1
    _ ImageCropper.CropReach.init

open ImageCropper in
/-- C6: `onImageLoad` letterbox-fits the image (full container width
when the image aspect exceeds the container aspect, else full
container height, centring the shorter dimension); `initCrop` takes
0.8 of the limiting fitted dimension, derives the other side from the
aspect ratio, and centres the result; and the concrete 1000×500 image
in a 500×500 container with aspect ratio 1 yields fitted box
`{width 500, height 250, left 0, top 125}` and initial crop
`{x 150, y 150, width 200, height 200}`. -/
theorem fitted_box_and_init_crop_characterization :
    (∀ (box : Box) (ar : ℚ),
      (box.width / box.height < ar →
        (initCrop box ar).width = box.width * 0.8 ∧
        (initCrop box ar).height = box.width * 0.8 / ar) ∧
      (¬ box.width / box.height < ar →
        (initCrop box ar).height = box.height * 0.8 ∧
        (initCrop box ar).width = box.height * 0.8 * ar) ∧
      ((initCrop box ar).x + (initCrop box ar).width / 2 =
          box.left + box.width / 2 ∧
        (initCrop box ar).y + (initCrop box ar).height / 2 =
          box.top + box.height / 2)) ∧
    (∀ cw ch nw nh : ℚ,
      (cw / ch < nw / nh →
        onImageLoad cw ch nw nh =
          { width := cw, height := cw / (nw / nh), left := 0,
            top := (ch - cw / (nw / nh)) / 2 }) ∧
      (¬ cw / ch < nw / nh →
        onImageLoad cw ch nw nh =
          { width := ch * (nw / nh), height := ch,
            left := (cw - ch * (nw / nh)) / 2, top := 0 })) ∧
    onImageLoad 500 500 1000 500 =
      { width := 500, height := 250, left := 0, top := 125 } ∧
    initCrop { width := 500, height := 250, left := 0, top := 125 } 1 =
      { x := 150, y := 150, width := 200, height := 200 } := by
  refine ⟨fun box ar => ⟨fun h => ⟨?_, ?_⟩, fun h => ⟨?_, ?_⟩, ⟨?_, ?_⟩⟩,
    fun cw ch nw nh => ⟨fun h => ?_, fun h => ?_⟩, ?_, ?_⟩
  · simp only [initCrop]
    rw [if_pos h]
  · simp only [initCrop]
    rw [if_pos h]
  · simp only [initCrop]
    rw [if_neg h]
  · simp only [initCrop]
    rw [if_neg h]
  · simp only [initCrop]
    split_ifs with h <;> ring
  · simp only [initCrop]
    split_ifs with h <;> ring
  · simp only [onImageLoad]
    rw [if_pos h]
  · simp only [onImageLoad]
    rw [if_neg h]
  · norm_num [onImageLoad]
  · norm_num [initCrop]

theorem fitted_box_and_init_crop_characterization_witness :
    ImageCropper.onImageLoad 500 500 1000 500 =
      { width := 500, height := 250, left := 0, top := 125 } ∧
    ImageCropper.initCrop { width := 500, height := 250, left := 0, top := 125 } 1 =
      { x := 150, y := 150, width := 200, height := 200 } :=
  ⟨fitted_box_and_init_crop_characterization.2.2.1,
   fitted_box_and_init_crop_characterization.2.2.2⟩

open ImageCropper in
/-- C8: after the drag session has been cleared by `handleMouseUp`
(`dragInfo.type = null`), `handleSave` builds a canvas sized exactly
`crop.width * scaleX` by `crop.height * scaleY` — no 2-pixel trim —
and copies from the source rectangle obtained by subtracting the
fitted box origin and multiplying by
`scaleX = naturalWidth / fittedWidth`,
`scaleY = naturalHeight / fittedHeight`. -/
theorem export_geometry_untrimmed_when_cleared (naturalW naturalH : ℚ)
    (box : Box) (crop : Rect) (info : DragInfo) :
    (handleMouseUp info).active = false ∧ (handleMouseUp info).type = none ∧
    handleSave naturalW naturalH box crop (handleMouseUp info).type =
      { canvasWidth := crop.width * (naturalW / box.width)
        canvasHeight := crop.height * (naturalH / box.height)
        srcX := (crop.x - box.left) * (naturalW / box.width)
        srcY := (crop.y - box.top) * (naturalH / box.height)
        srcW := crop.width * (naturalW / box.width)
        srcH := crop.height * (naturalH / box.height) } := by
  refine ⟨rfl, rfl, ?_⟩
  simp [handleSave, handleMouseUp]

open ImageCropper in
/-- C9 (code evaluation at the failing input): dragging the `move`
handle by `(dx, dy) = (10, 0)` on the rect `{100, 100, 200, 100}` with
aspect ratio 2 inside the fitted box `{1000, 500, 0, 0}` resizes the
rect to width 210 and height 105 — because the JS substring test
`'move'.includes('e')` is true, the move branch also applies the
east-edge width delta — contradicting the claim that a move drag
leaves width and height unchanged. -/
theorem move_drag_resizes_failing_input :
    handleMouseMove { width := 1000, height := 500, left := 0, top := 0 } 2
        { x := 100, y := 100, width := 200, height := 100 } .move 10 0 =
      { x := 110, y := 100, width := 210, height := 105 } ∧
    (handleMouseMove { width := 1000, height := 500, left := 0, top := 0 } 2
        { x := 100, y := 100, width := 200, height := 100 } .move 10 0).width ≠
      ({ x := 100, y := 100, width := 200, height := 100 } : Rect).width := by
  have heval : handleMouseMove { width := 1000, height := 500, left := 0, top := 0 } 2
      { x := 100, y := 100, width := 200, height := 100 } .move 10 0 =
      { x := 110, y := 100, width := 210, height := 105 } := by
    norm_num [handleMouseMove, candidateRect, clampToBox, applyMove, applyAnchors,
      applyAspect, applyEdgeDeltas, includesE, includesW, includesN, includesS,
      startsWithN, startsWithS, mathMax,
      show ¬(Handle.move = Handle.nw ∨ Handle.move = Handle.sw) from by decide,
      show ¬(Handle.move = Handle.nw ∨ Handle.move = Handle.ne) from by decide]
  refine ⟨heval, ?_⟩
  rw [heval]
  norm_num
